import Mathlib

/-!
Verification of the authorization type system and relationship graph of the
OpenFGA-style repository.  The repository ships the Go test file for the
`typesystem` package (`TestNewAndValidate`, `TestIsDirectlyRelated`,
`TestRelationshipEdges`, ...) but not the implementation itself, so the
definitions below are modelled from the specification (`spec.md` sections 3,
4.2 and 4.3), with every behavioural choice pinned against the concrete
vectors of the in-repository test file.
-/

deriving instance DecidableEq for Except

namespace OpenFGA

/-- Kind of a relation reference: a direct type (`user`), a userset
(`team#member`), or a typed wildcard (`user:*`).  Mirrors the protobuf
`RelationReference.RelationOrWildcard` one-of (absent / relation / wildcard). -/
inductive RefKind where
  | direct : RefKind
  | rel (name : String) : RefKind
  | wildcard : RefKind
  deriving DecidableEq, Repr

/-- A relation reference: a type name together with a `RefKind`. -/
structure RelationReference where
  refType : String
  kind : RefKind
  deriving DecidableEq, Repr

/-- Modelled from the spec: helper `DirectRelationReference(objectType, relation)`
of the missing `typesystem` package; an empty relation string produces a direct
type reference. -/
def DirectRelationReference (objectType relation : String) : RelationReference :=
  if relation = "" then ⟨objectType, .direct⟩ else ⟨objectType, .rel relation⟩

/-- Modelled from the spec: helper `WildcardRelationReference(objectType)`. -/
def WildcardRelationReference (objectType : String) : RelationReference :=
  ⟨objectType, .wildcard⟩

/-- Userset rewrite tree (spec section 3): leaves `This`, `ComputedUserset`,
`TupleToUserset`; combinators `Union`, `Intersection`, `Difference`.  The
`TupleToUserset` node stores the tupleset relation name and the computed
userset relation name (the object components are unused at the model level). -/
inductive Userset where
  | this : Userset
  | computedUserset (relation : String) : Userset
  | tupleToUserset (tupleset computedRelation : String) : Userset
  | union (children : List Userset) : Userset
  | intersection (children : List Userset) : Userset
  | difference (base subtract : Userset) : Userset

/-- A type definition: name, relation-name-to-rewrite map (`none` models the
protobuf empty rewrite), and metadata mapping relation names to their
`directly_related_user_types` lists. -/
structure TypeDefinition where
  typeName : String
  relations : List (String × Option Userset)
  metadata : List (String × List RelationReference)

/-- An authorization model: schema version plus ordered type definitions. -/
structure AuthorizationModel where
  schemaVersion : String
  typeDefinitions : List TypeDefinition

/-- Error taxonomy of the validator and graph queries (spec section 7). -/
inductive TsError where
  | objectTypeUndefined (objectType : String) : TsError
  | relationUndefined (relation : String) : TsError
  | reservedKeywords : TsError
  | duplicateTypes : TsError
  | invalidUsersetRewrite : TsError
  | noEntrypoints : TsError
  | noEntryPointsLoop : TsError
  | assignableRelation (objectType relation : String) : TsError
  | nonAssignableRelation (objectType relation : String) : TsError
  | invalidRelationType (objectType relation refType refRelation : String) : TsError
  deriving DecidableEq, Repr

/-- Association-list lookup used for relation and metadata maps. -/
def assoc {α : Type} (l : List (String × α)) (k : String) : Option α :=
  match l.find? (fun p => p.1 = k) with
  | some p => some p.2
  | none => none

/-- Find the (first) type definition with the given name. -/
def findTypeDef (m : AuthorizationModel) (t : String) : Option TypeDefinition :=
  m.typeDefinitions.find? (fun td => td.typeName = t)

/-- Modelled from the spec: `GetRelation` of the missing `typesystem` package.
Returns the rewrite of relation `r` on type `t`; `ErrObjectTypeUndefined` when
the type is not in the model, `ErrRelationUndefined` when the relation is not
defined on it (spec: "Failure semantics"). -/
def getRelation (m : AuthorizationModel) (t r : String) : Except TsError (Option Userset) :=
  match findTypeDef m t with
  | none => .error (.objectTypeUndefined t)
  | some td =>
    match assoc td.relations r with
    | none => .error (.relationUndefined r)
    | some rw => .ok rw

/-- Allowed-types list (`directly_related_user_types`) for `(t, r)`; empty when
the type or the metadata entry is absent. -/
def directlyRelatedUserTypes (m : AuthorizationModel) (t r : String) : List RelationReference :=
  match findTypeDef m t with
  | none => []
  | some td => (assoc td.metadata r).getD []

/-- Relation name carried by a reference (empty for direct and wildcard kinds),
mirroring the protobuf `GetRelation()` accessor. -/
def refRelName (r : RelationReference) : String :=
  match r.kind with
  | .rel s => s
  | _ => ""

/-- Modelled from the spec: `IsDirectlyRelated(target, source)` returns true
iff `source` appears in `target`'s allowed-types list.  Matching is exact per
kind — a wildcard entry matches only a wildcard source, a direct entry only a
direct source, a userset entry only the identical userset — as pinned by
`TestIsDirectlyRelated` (`wildcard_and_direct` expects `false`). -/
def IsDirectlyRelated (m : AuthorizationModel) (target source : RelationReference) :
    Except TsError Bool := do
  let _ ← getRelation m target.refType (refRelName target)
  let allowed := directlyRelatedUserTypes m target.refType (refRelName target)
  .ok (allowed.any (fun ref =>
    ref.refType = source.refType &&
      match ref.kind, source.kind with
      | .direct, .direct => true
      | .wildcard, .wildcard => true
      | .rel a, .rel b => a = b
      | _, _ => false))

/-- Modelled from the spec: `IsPubliclyAssignable(target, objectType)` returns
true iff the wildcard `objectType:*` appears in `target`'s allowed-types list,
as pinned by `TestIsPubliclyAssignable` (case 4 expects `false` for a wildcard
reachable only through a userset chain). -/
def IsPubliclyAssignable (m : AuthorizationModel) (target : RelationReference)
    (objectType : String) : Except TsError Bool := do
  let _ ← getRelation m target.refType (refRelName target)
  let allowed := directlyRelatedUserTypes m target.refType (refRelName target)
  .ok (allowed.any (fun ref => ref = ⟨objectType, .wildcard⟩))

mutual

/-- Rewrite walker (spec section 4.1): does the tree contain a `This` leaf?
A relation is *assignable* iff this holds. -/
def containsThis : Userset → Bool
  | .this => true
  | .computedUserset _ => false
  | .tupleToUserset _ _ => false
  | .union cs => listContainsThis cs
  | .intersection cs => listContainsThis cs
  | .difference b s => containsThis b || containsThis s

/-- List version of `containsThis`. -/
def listContainsThis : List Userset → Bool
  | [] => false
  | c :: cs => containsThis c || listContainsThis cs

end

mutual

/-- Does the rewrite tree contain an `Intersection` node? -/
def rewriteContainsIntersection : Userset → Bool
  | .this => false
  | .computedUserset _ => false
  | .tupleToUserset _ _ => false
  | .union cs => listContainsIntersection cs
  | .intersection _ => true
  | .difference b s => rewriteContainsIntersection b || rewriteContainsIntersection s

/-- List version of `rewriteContainsIntersection`. -/
def listContainsIntersection : List Userset → Bool
  | [] => false
  | c :: cs => rewriteContainsIntersection c || listContainsIntersection cs

end

mutual

/-- Does the rewrite tree contain a `Difference` (exclusion) node? -/
def rewriteContainsExclusion : Userset → Bool
  | .this => false
  | .computedUserset _ => false
  | .tupleToUserset _ _ => false
  | .union cs => listContainsExclusion cs
  | .intersection cs => listContainsExclusion cs
  | .difference _ _ => true

/-- List version of `rewriteContainsExclusion`. -/
def listContainsExclusion : List Userset → Bool
  | [] => false
  | c :: cs => rewriteContainsExclusion c || listContainsExclusion cs

end

mutual

/-- All relation names referenced by `ComputedUserset` nodes of the rewrite
tree, at any position not inside a `TupleToUserset` (a `TupleToUserset` node is
a leaf from this point of view: traversal through it consumes a tuple hop). -/
def cuNames : Userset → List String
  | .this => []
  | .computedUserset r => [r]
  | .tupleToUserset _ _ => []
  | .union cs => listCuNames cs
  | .intersection cs => listCuNames cs
  | .difference b s => cuNames b ++ cuNames s

/-- List version of `cuNames`. -/
def listCuNames : List Userset → List String
  | [] => []
  | c :: cs => cuNames c ++ listCuNames cs

end

mutual

/-- All `(tupleset, computed_userset)` name pairs of `TupleToUserset` nodes in
the rewrite tree, under arbitrary nesting of the combinators. -/
def ttuPairs : Userset → List (String × String)
  | .this => []
  | .computedUserset _ => []
  | .tupleToUserset ts cu => [(ts, cu)]
  | .union cs => listTtuPairs cs
  | .intersection cs => listTtuPairs cs
  | .difference b s => ttuPairs b ++ ttuPairs s

/-- List version of `ttuPairs`. -/
def listTtuPairs : List Userset → List (String × String)
  | [] => []
  | c :: cs => ttuPairs c ++ listTtuPairs cs

end

mutual

/-- Does the rewrite tree contain a `Union` or `Intersection` node with an
empty children list (rejected by the validator, spec check 3)? -/
def containsEmptyCombinator : Userset → Bool
  | .this => false
  | .computedUserset _ => false
  | .tupleToUserset _ _ => false
  | .union cs => cs.isEmpty || listContainsEmptyCombinator cs
  | .intersection cs => cs.isEmpty || listContainsEmptyCombinator cs
  | .difference b s => containsEmptyCombinator b || containsEmptyCombinator s

/-- List version of `containsEmptyCombinator`. -/
def listContainsEmptyCombinator : List Userset → Bool
  | [] => false
  | c :: cs => containsEmptyCombinator c || listContainsEmptyCombinator cs

end

/-- A `(type, relation)` key, the frame unit of all the visited-set guards. -/
abbrev Key := String × String

/-- All `(type, relation)` pairs declared in the model, in declaration order. -/
def relationKeys (m : AuthorizationModel) : List Key :=
  (m.typeDefinitions.map (fun td => td.relations.map (fun p => (td.typeName, p.1)))).flatten

/-- Is relation `r` defined on type `t`? -/
def relationDefined (m : AuthorizationModel) (t r : String) : Bool :=
  match findTypeDef m t with
  | none => false
  | some td => (assoc td.relations r).isSome

/-- Modelled from the spec: `IsTuplesetRelation(type, relation)` of the missing
`typesystem` package — true iff `relation` appears as the `tupleset` relation
of some `TupleToUserset` on any relation of `type`, under arbitrary nesting of
the combinators; `ErrObjectTypeUndefined` / `ErrRelationUndefined` on undefined
arguments, as pinned by `TestIsTuplesetRelation`. -/
def IsTuplesetRelation (m : AuthorizationModel) (t r : String) : Except TsError Bool :=
  match findTypeDef m t with
  | none => .error (.objectTypeUndefined t)
  | some td =>
    match assoc td.relations r with
    | none => .error (.relationUndefined r)
    | some _ =>
      .ok (td.relations.any (fun p =>
        match p.2 with
        | some rw => (ttuPairs rw).any (fun q => q.1 = r)
        | none => false))

/-- Direct successors of a relation frame in the reachability relation used by
the intersection/exclusion classifiers: userset references in the allowed-types
list, `ComputedUserset` targets, and `TupleToUserset` targets on every type
permitted by the tupleset (skipping types where the computed relation is
undefined). -/
def involvesSuccs (m : AuthorizationModel) (k : Key) : List Key :=
  match getRelation m k.1 k.2 with
  | .error _ => []
  | .ok none => []
  | .ok (some rw) =>
    (directlyRelatedUserTypes m k.1 k.2).filterMap (fun ref =>
      match ref.kind with
      | .rel r => some ((ref.refType, r) : Key)
      | _ => none) ++
    (cuNames rw).map (fun r => ((k.1, r) : Key)) ++
    (ttuPairs rw).flatMap (fun q =>
      (directlyRelatedUserTypes m k.1 q.1).filterMap (fun ref =>
        if relationDefined m ref.refType q.2 then some ((ref.refType, q.2) : Key) else none))

/-- One step of the reachability closure: add all successors of members. -/
def involvesStep (m : AuthorizationModel) (s : List Key) : List Key :=
  (s ++ s.flatMap (involvesSuccs m)).dedup

/-- Iterate a step function `n` times. -/
def iterate {α : Type} (f : α → α) : Nat → α → α
  | 0, s => s
  | n + 1, s => iterate f n (f s)

/-- Relation frames reachable from `k` (inclusive): the closure stabilises
after at most as many steps as there are declared relations. -/
def reachableFrom (m : AuthorizationModel) (k : Key) : List Key :=
  iterate (involvesStep m) ((relationKeys m).length + 1) [k]

/-- Does the rewrite of relation frame `k` directly contain the searched
combinator (`true` searches for `Intersection`, `false` for `Difference`)? -/
def frameContains (m : AuthorizationModel) (findInter : Bool) (k : Key) : Bool :=
  match getRelation m k.1 k.2 with
  | .ok (some rw) => if findInter then rewriteContainsIntersection rw else rewriteContainsExclusion rw
  | _ => false

/-- Modelled from the spec: `RelationInvolvesIntersection(type, relation)` —
true iff any rewrite reachable from `(type, relation)` (through
computed-userset, tuple-to-userset, and allowed-type userset references)
contains an `Intersection` node; errors as in `GetRelation`. -/
def RelationInvolvesIntersection (m : AuthorizationModel) (t r : String) :
    Except TsError Bool := do
  let _ ← getRelation m t r
  .ok ((reachableFrom m (t, r)).any (frameContains m true))

/-- Modelled from the spec: `RelationInvolvesExclusion(type, relation)` — as
`RelationInvolvesIntersection` but for `Difference` nodes. -/
def RelationInvolvesExclusion (m : AuthorizationModel) (t r : String) :
    Except TsError Bool := do
  let _ ← getRelation m t r
  .ok ((reachableFrom m (t, r)).any (frameContains m false))

/-- Edge kinds of the relationship graph (spec section 4.3). -/
inductive RelationshipEdgeType where
  | direct : RelationshipEdgeType
  | computedUserset : RelationshipEdgeType
  | tupleToUserset : RelationshipEdgeType
  deriving DecidableEq, Repr

/-- Edge condition: sufficient on its own, or to be re-confirmed against the
siblings of an intersection/exclusion. -/
inductive EdgeCondition where
  | noFurtherEval : EdgeCondition
  | requiresFurtherEval : EdgeCondition
  deriving DecidableEq, Repr

/-- A relationship-graph edge: kind, target reference, tupleset relation (for
tuple-to-userset edges only) and condition. -/
structure RelationshipEdge where
  edgeType : RelationshipEdgeType
  targetReference : RelationReference
  tuplesetRelation : Option RelationReference
  condition : EdgeCondition
  deriving DecidableEq, Repr

/-- Collapse a fallible boolean to a plain boolean, errors counting as false
(the Go edge builder discards the error of these two checks). -/
def exceptBool : Except TsError Bool → Bool
  | .ok b => b
  | .error _ => false

/-- A direct edge to the given target reference, unconditioned. -/
def directEdgeTo (target : RelationReference) : RelationshipEdge :=
  ⟨.direct, DirectRelationReference target.refType (refRelName target), none, .noFurtherEval⟩

/-- Mark every edge of a list as requiring further evaluation (applied to the
edges of the first operand of an intersection and the base of an exclusion). -/
def markFurtherEval (es : List RelationshipEdge) : List RelationshipEdge :=
  es.map (fun e => { e with condition := .requiresFurtherEval })

/-- Condition for a computed-userset or tuple-to-userset edge pointing at
relation `(t, r)`: requires further evaluation iff that relation involves an
intersection or an exclusion, as pinned by
`TestPrunedRelationshipEdges/basic_intersection_through_ttu_2` and
`.../basic_exclusion_through_ttu_2`. -/
def edgeConditionFor (m : AuthorizationModel) (t r : String) : Except TsError EdgeCondition := do
  let i ← RelationInvolvesIntersection m t r
  let e ← RelationInvolvesExclusion m t r
  .ok (if i || e then .requiresFurtherEval else .noFurtherEval)

/-- Result type of the edge builder: `none` models non-termination of the
unguarded recursion (fuel exhaustion); otherwise an error or the collected
edges together with the final visited set. -/
abbrev EdgesOut := Option (Except TsError (List RelationshipEdge × List Key))

/-- Modelled from the spec: recursion of the edge builder into the userset
references of the allowed-types list of a `This` leaf, threading the visited
set left to right.  `recurse` is the relation-level edge builder at the
current fuel. -/
def thisListAux (recurse : List Key → RelationReference → RelationReference → EdgesOut)
    (source : RelationReference) : List RelationReference → List Key → EdgesOut
  | [], visited => some (.ok ([], visited))
  | ⟨rt, .rel rr⟩ :: refs, visited =>
    (match recurse visited ⟨rt, .rel rr⟩ source with
    | none => none
    | some (.error e) => some (.error e)
    | some (.ok (es, v')) =>
      match thisListAux recurse source refs v' with
      | none => none
      | some (.error e) => some (.error e)
      | some (.ok (es2, v'')) => some (.ok (es ++ es2, v'')))
  | ⟨_, .direct⟩ :: refs, visited => thisListAux recurse source refs visited
  | ⟨_, .wildcard⟩ :: refs, visited => thisListAux recurse source refs visited

/-- The computed-userset edge emitted when the rewritten relation matches the
source (spec edge-construction step 3), conditioned by `edgeConditionFor`. -/
def cuHead (m : AuthorizationModel) (target source : RelationReference) (rel : String) :
    Except TsError (List RelationshipEdge) :=
  if target.refType = source.refType ∧ rel = refRelName source then
    match edgeConditionFor m target.refType rel with
    | .error e => .error e
    | .ok cond =>
      .ok [⟨.computedUserset, DirectRelationReference target.refType (refRelName target),
            none, cond⟩]
  else .ok []

/-- The tuple-to-userset edge emitted when the computed relation on a
permitted tupleset type matches the source (spec edge-construction step 4),
conditioned by `edgeConditionFor`. -/
def ttuHead (m : AuthorizationModel) (target source : RelationReference) (ts cu : String)
    (ref : RelationReference) : Except TsError (List RelationshipEdge) :=
  if ref.refType = source.refType ∧ cu = refRelName source then
    match edgeConditionFor m ref.refType cu with
    | .error e => .error e
    | .ok cond =>
      .ok [⟨.tupleToUserset, DirectRelationReference target.refType (refRelName target),
            some (DirectRelationReference target.refType ts), cond⟩]
  else .ok []

/-- Modelled from the spec: recursion of the edge builder into the types
permitted by the tupleset of a `TupleToUserset` rewrite.  A type on which the
computed relation is undefined is skipped (spec edge-construction step 4); the
tuple-to-userset edge itself is emitted when the computed relation on that
type matches the source, conditioned on whether it involves an intersection
or an exclusion. -/
def ttuListAux (m : AuthorizationModel)
    (recurse : List Key → RelationReference → RelationReference → EdgesOut)
    (target source : RelationReference) (ts cu : String) :
    List RelationReference → List Key → EdgesOut
  | [], visited => some (.ok ([], visited))
  | ref :: refs, visited =>
    match getRelation m ref.refType cu with
    | .error (.relationUndefined _) => ttuListAux m recurse target source ts cu refs visited
    | .error e => some (.error e)
    | .ok _ =>
      match ttuHead m target source ts cu ref with
      | .error e => some (.error e)
      | .ok hs =>
        match recurse visited (DirectRelationReference ref.refType cu) source with
        | none => none
        | some (.error e) => some (.error e)
        | some (.ok (es, v')) =>
          match ttuListAux m recurse target source ts cu refs v' with
          | none => none
          | some (.error e) => some (.error e)
          | some (.ok (es2, v'')) => some (.ok (hs ++ es ++ es2, v''))

/-- The direct edge emitted at a `This` leaf when the target is directly
related to the source or publicly assignable from the source type (spec
edge-construction step 2; the Go builder discards the errors of the two
checks). -/
def thisHead (m : AuthorizationModel) (target source : RelationReference) :
    List RelationshipEdge :=
  if exceptBool (IsDirectlyRelated m target source) ||
      exceptBool (IsPubliclyAssignable m target source.refType) then
    [directEdgeTo target]
  else []

mutual

/-- Modelled from the spec: dispatch of the edge builder on the target rewrite
(spec edge-construction steps 2, 3, 4 and 6).  On intersections and exclusions
the edges of the first operand (resp. the base) are marked as requiring
further evaluation; in pruned mode the remaining operands (resp. the subtract
side) are not traversed at all. -/
def edgesRwAux (m : AuthorizationModel) (pruned : Bool)
    (recurse : List Key → RelationReference → RelationReference → EdgesOut)
    (target source : RelationReference) : Userset → List Key → EdgesOut
  | .this, visited =>
    (match thisListAux recurse source
        (directlyRelatedUserTypes m target.refType (refRelName target)) visited with
    | none => none
    | some (.error e) => some (.error e)
    | some (.ok (es, v')) => some (.ok (thisHead m target source ++ es, v')))
  | .computedUserset rel, visited =>
    (match cuHead m target source rel with
    | .error e => some (.error e)
    | .ok hs =>
      match recurse visited (DirectRelationReference target.refType rel) source with
      | none => none
      | some (.error e) => some (.error e)
      | some (.ok (es, v')) => some (.ok (hs ++ es, v')))
  | .tupleToUserset ts cu, visited =>
    ttuListAux m recurse target source ts cu (directlyRelatedUserTypes m target.refType ts) visited
  | .union cs, visited =>
    edgesChildrenAux m pruned recurse target source cs visited
  | .intersection [], visited => some (.ok ([], visited))
  | .intersection (c :: cs), visited =>
    (match edgesRwAux m pruned recurse target source c visited with
    | none => none
    | some (.error e) => some (.error e)
    | some (.ok (es, v')) =>
      let base := markFurtherEval es
      if pruned then some (.ok (base, v'))
      else
        match edgesChildrenAux m pruned recurse target source cs v' with
        | none => none
        | some (.error e) => some (.error e)
        | some (.ok (es2, v'')) => some (.ok (base ++ es2, v'')))
  | .difference b s, visited =>
    (match edgesRwAux m pruned recurse target source b visited with
    | none => none
    | some (.error e) => some (.error e)
    | some (.ok (es, v')) =>
      let base := markFurtherEval es
      if pruned then some (.ok (base, v'))
      else
        match edgesRwAux m pruned recurse target source s v' with
        | none => none
        | some (.error e) => some (.error e)
        | some (.ok (es2, v'')) => some (.ok (base ++ es2, v'')))

/-- Modelled from the spec: recursion of the edge builder into the children of
a union (or of the tail of an intersection), threading the visited set left to
right. -/
def edgesChildrenAux (m : AuthorizationModel) (pruned : Bool)
    (recurse : List Key → RelationReference → RelationReference → EdgesOut)
    (target source : RelationReference) : List Userset → List Key → EdgesOut
  | [], visited => some (.ok ([], visited))
  | c :: cs, visited =>
    match edgesRwAux m pruned recurse target source c visited with
    | none => none
    | some (.error e) => some (.error e)
    | some (.ok (es, v')) =>
      match edgesChildrenAux m pruned recurse target source cs v' with
      | none => none
      | some (.error e) => some (.error e)
      | some (.ok (es2, v'')) => some (.ok (es ++ es2, v''))

end

/-- Modelled from the spec: recursive core of `GetRelationshipEdges` of the
missing graph package.  Guards on the visited `(type, relation)` frames (spec
edge-construction step 5), resolves the target relation and dispatches on its
rewrite.  Fuel is consumed once per newly visited frame; the frame count of
the model plus one is proved sufficient. -/
def edgesRec (m : AuthorizationModel) (pruned : Bool) :
    Nat → List Key → RelationReference → RelationReference → EdgesOut
  | 0, _, _, _ => none
  | fuel + 1, visited, target, source =>
    let key : Key := (target.refType, refRelName target)
    if key ∈ visited then some (.ok ([], visited))
    else
      match getRelation m key.1 key.2 with
      | .error e => some (.error e)
      | .ok none => some (.ok ([], key :: visited))
      | .ok (some rw) =>
        edgesRwAux m pruned (edgesRec m pruned fuel) target source rw (key :: visited)

/-- Distinct relation frames of the model. -/
def dedupKeys (m : AuthorizationModel) : List Key :=
  (relationKeys m).dedup

/-- Number of distinct relation frames not yet visited: the termination
measure of the edge builder. -/
def countUnvisited (m : AuthorizationModel) (visited : List Key) : Nat :=
  ((dedupKeys m).filter (fun k => decide (k ∉ visited))).length

/-- Fuel sufficient for the edge builder: one more than the number of distinct
relation frames of the model. -/
def keyFuel (m : AuthorizationModel) : Nat :=
  (dedupKeys m).length + 1

/-- Modelled from the spec: `GetRelationshipEdges(target, source)` — all edges
from `target` whose traversal can plausibly reach `source` (spec section 4.3);
`none` would indicate non-termination of the guarded recursion and is proved
impossible. -/
def GetRelationshipEdges (m : AuthorizationModel) (target source : RelationReference) :
    Option (Except TsError (List RelationshipEdge)) :=
  match edgesRec m false (keyFuel m) [] target source with
  | none => none
  | some (.error e) => some (.error e)
  | some (.ok (es, _)) => some (.ok es)

/-- Modelled from the spec: `GetPrunedRelationshipEdges(target, source)` — as
`GetRelationshipEdges`, but on intersections and exclusions only the edges of
the first operand (resp. the base) are produced, marked as requiring further
evaluation. -/
def GetPrunedRelationshipEdges (m : AuthorizationModel) (target source : RelationReference) :
    Option (Except TsError (List RelationshipEdge)) :=
  match edgesRec m true (keyFuel m) [] target source with
  | none => none
  | some (.error e) => some (.error e)
  | some (.ok (es, _)) => some (.ok es)

/-- Success predicate of an edge-builder result relative to the visited set it
started from: fuel never ran out, and on success the visited set only grew. -/
def EdgesOutOk (visited : List Key) : EdgesOut → Prop
  | none => False
  | some (.error _) => True
  | some (.ok (_, v')) => visited ⊆ v'

theorem edgesOutOk_weaken {v v' : List Key} {out : EdgesOut} (h : EdgesOutOk v' out)
    (hsub : v ⊆ v') : EdgesOutOk v out := by
  cases out with
  | none => exact h
  | some r =>
    cases r with
    | error e => trivial
    | ok p => exact hsub.trans h

theorem countUnvisited_anti (m : AuthorizationModel) {v v' : List Key} (h : v ⊆ v') :
    countUnvisited m v' ≤ countUnvisited m v := by
  apply List.Sublist.length_le
  apply List.monotone_filter_right
  intro a ha
  simp only [decide_eq_true_eq] at ha ⊢
  exact fun hmem => ha (h hmem)

theorem countUnvisited_cons (m : AuthorizationModel) {k : Key} {v : List Key}
    (hk : k ∈ dedupKeys m) (hnv : k ∉ v) :
    countUnvisited m (k :: v) < countUnvisited m v := by
  have hsub : List.Sublist ((dedupKeys m).filter (fun x => decide (x ∉ k :: v)))
      ((dedupKeys m).filter (fun x => decide (x ∉ v))) := by
    apply List.monotone_filter_right
    intro a ha
    simp only [decide_eq_true_eq, List.mem_cons] at ha ⊢
    exact fun hmem => ha (Or.inr hmem)
  have hkmem : k ∈ (dedupKeys m).filter (fun x => decide (x ∉ v)) := by
    simp only [List.mem_filter, decide_eq_true_eq]
    exact ⟨hk, hnv⟩
  have hknmem : k ∉ (dedupKeys m).filter (fun x => decide (x ∉ k :: v)) := by
    intro hmem
    have h2 := (List.mem_filter.mp hmem).2
    simp only [decide_eq_true_eq] at h2
    exact h2 (List.mem_cons_self k v)
  refine Nat.lt_of_le_of_ne (hsub.length_le) (fun hlen => ?_)
  have heq := hsub.eq_of_length hlen
  rw [heq] at hknmem
  exact hknmem hkmem

theorem getRelation_key_mem (m : AuthorizationModel) {t r : String} {w : Option Userset}
    (h : getRelation m t r = .ok w) : ((t, r) : Key) ∈ dedupKeys m := by
  cases hf : findTypeDef m t with
  | none => simp [getRelation, hf] at h
  | some td =>
    cases ha : assoc td.relations r with
    | none => simp [getRelation, hf, ha] at h
    | some rw' =>
      have htd : td ∈ m.typeDefinitions ∧ td.typeName = t := by
        unfold findTypeDef at hf
        refine ⟨List.mem_of_find?_eq_some hf, ?_⟩
        have := List.find?_some hf
        simpa using this
      have hr : ∃ p ∈ td.relations, p.1 = r := by
        unfold assoc at ha
        cases hfind : td.relations.find? (fun p => p.1 = r) with
        | none => simp [hfind] at ha
        | some p =>
          refine ⟨p, List.mem_of_find?_eq_some hfind, ?_⟩
          have := List.find?_some hfind
          simpa using this
      obtain ⟨p, hp, hpr⟩ := hr
      unfold dedupKeys
      rw [List.mem_dedup]
      unfold relationKeys
      rw [List.mem_flatten]
      refine ⟨td.relations.map (fun p => (td.typeName, p.1)), ?_, ?_⟩
      · exact List.mem_map_of_mem _ htd.1
      · rw [List.mem_map]
        exact ⟨p, hp, by rw [htd.2, hpr]⟩

theorem thisListAux_good (recurse : List Key → RelationReference → RelationReference → EdgesOut)
    (P : List Key → Prop)
    (hP : ∀ v v', v ⊆ v' → P v → P v')
    (hrec : ∀ v t s, P v → EdgesOutOk v (recurse v t s))
    (source : RelationReference) :
    ∀ (refs : List RelationReference) (visited : List Key), P visited →
      EdgesOutOk visited (thisListAux recurse source refs visited) := by
  intro refs
  induction refs with
  | nil => intro visited hv; exact fun _ h => h
  | cons ref refs ih =>
    obtain ⟨rt, rk⟩ := ref
    cases rk with
    | direct => intro visited hv; exact ih visited hv
    | wildcard => intro visited hv; exact ih visited hv
    | rel rr =>
      intro visited hv
      simp only [thisListAux]
      have h1 := hrec visited ⟨rt, .rel rr⟩ source hv
      cases hres : recurse visited ⟨rt, .rel rr⟩ source with
      | none => rw [hres] at h1; exact absurd h1 (by simp [EdgesOutOk])
      | some r =>
        cases r with
        | error e => trivial
        | ok p =>
          obtain ⟨es, v'⟩ := p
          rw [hres] at h1
          have hsub : visited ⊆ v' := h1
          have h2 := ih v' (hP _ _ hsub hv)
          dsimp only
          cases hres2 : thisListAux recurse source refs v' with
          | none => rw [hres2] at h2; exact absurd h2 (by simp [EdgesOutOk])
          | some r2 =>
            cases r2 with
            | error e => trivial
            | ok p2 =>
              obtain ⟨es2, v''⟩ := p2
              rw [hres2] at h2
              exact hsub.trans h2

theorem ttuListAux_good (m : AuthorizationModel)
    (recurse : List Key → RelationReference → RelationReference → EdgesOut)
    (P : List Key → Prop)
    (hP : ∀ v v', v ⊆ v' → P v → P v')
    (hrec : ∀ v t s, P v → EdgesOutOk v (recurse v t s))
    (target source : RelationReference) (ts cu : String) :
    ∀ (refs : List RelationReference) (visited : List Key), P visited →
      EdgesOutOk visited (ttuListAux m recurse target source ts cu refs visited) := by
  intro refs
  induction refs with
  | nil => intro visited hv; exact fun _ h => h
  | cons ref refs ih =>
    intro visited hv
    simp only [ttuListAux]
    cases hg : getRelation m ref.refType cu with
    | error e =>
      cases e with
      | relationUndefined s => exact ih visited hv
      | objectTypeUndefined s => trivial
      | reservedKeywords => trivial
      | duplicateTypes => trivial
      | invalidUsersetRewrite => trivial
      | noEntrypoints => trivial
      | noEntryPointsLoop => trivial
      | assignableRelation a b => trivial
      | nonAssignableRelation a b => trivial
      | invalidRelationType a b c d => trivial
    | ok w =>
      cases hh : ttuHead m target source ts cu ref with
      | error e => trivial
      | ok hs =>
        have h1 := hrec visited (DirectRelationReference ref.refType cu) source hv
        cases hres : recurse visited (DirectRelationReference ref.refType cu) source with
        | none => rw [hres] at h1; exact absurd h1 (by simp [EdgesOutOk])
        | some r =>
          cases r with
          | error e => trivial
          | ok p =>
            obtain ⟨es, v'⟩ := p
            rw [hres] at h1
            have hsub : visited ⊆ v' := h1
            have h2 := ih v' (hP _ _ hsub hv)
            dsimp only
            cases hres2 : ttuListAux m recurse target source ts cu refs v' with
            | none => rw [hres2] at h2; exact absurd h2 (by simp [EdgesOutOk])
            | some r2 =>
              cases r2 with
              | error e => trivial
              | ok p2 =>
                obtain ⟨es2, v''⟩ := p2
                rw [hres2] at h2
                exact hsub.trans h2

mutual

/-- Goodness of the rewrite dispatcher: under any predicate `P` stable under
visited-set growth and guaranteeing goodness of the relation-level recursion,
the dispatcher never runs out of fuel and only grows the visited set. -/
theorem edgesRwAux_good (m : AuthorizationModel) (pruned : Bool)
    (recurse : List Key → RelationReference → RelationReference → EdgesOut)
    (P : List Key → Prop)
    (hP : ∀ v v', v ⊆ v' → P v → P v')
    (hrec : ∀ v t s, P v → EdgesOutOk v (recurse v t s))
    (target source : RelationReference) :
    ∀ (u : Userset) (visited : List Key), P visited →
      EdgesOutOk visited (edgesRwAux m pruned recurse target source u visited)
  | .this, visited, hv => by
    simp only [edgesRwAux]
    have h1 := thisListAux_good recurse P hP hrec source
      (directlyRelatedUserTypes m target.refType (refRelName target)) visited hv
    cases hres : thisListAux recurse source
        (directlyRelatedUserTypes m target.refType (refRelName target)) visited with
    | none => rw [hres] at h1; exact h1.elim
    | some r =>
      cases r with
      | error e => trivial
      | ok p =>
        obtain ⟨es, v'⟩ := p
        rw [hres] at h1
        exact h1
  | .computedUserset rel, visited, hv => by
    simp only [edgesRwAux]
    cases hh : cuHead m target source rel with
    | error e => trivial
    | ok hs =>
      have h1 := hrec visited (DirectRelationReference target.refType rel) source hv
      cases hres : recurse visited (DirectRelationReference target.refType rel) source with
      | none => rw [hres] at h1; exact h1.elim
      | some r =>
        cases r with
        | error e => trivial
        | ok p =>
          obtain ⟨es, v'⟩ := p
          rw [hres] at h1
          exact h1
  | .tupleToUserset ts cu, visited, hv => by
    simp only [edgesRwAux]
    exact ttuListAux_good m recurse P hP hrec target source ts cu
      (directlyRelatedUserTypes m target.refType ts) visited hv
  | .union cs, visited, hv => by
    simp only [edgesRwAux]
    exact edgesChildrenAux_good m pruned recurse P hP hrec target source cs visited hv
  | .intersection [], visited, hv => by
    simp only [edgesRwAux]
    exact fun _ h => h
  | .intersection (c :: cs), visited, hv => by
    simp only [edgesRwAux]
    have h1 := edgesRwAux_good m pruned recurse P hP hrec target source c visited hv
    cases hres : edgesRwAux m pruned recurse target source c visited with
    | none => rw [hres] at h1; exact h1.elim
    | some r =>
      cases r with
      | error e => trivial
      | ok p =>
        obtain ⟨es, v'⟩ := p
        rw [hres] at h1
        have hsub : visited ⊆ v' := h1
        cases pruned with
        | true => exact hsub
        | false =>
          have h2 := edgesChildrenAux_good m false recurse P hP hrec target source cs v'
            (hP _ _ hsub hv)
          dsimp only
          cases hres2 : edgesChildrenAux m false recurse target source cs v' with
          | none => rw [hres2] at h2; exact h2.elim
          | some r2 =>
            cases r2 with
            | error e => trivial
            | ok p2 =>
              obtain ⟨es2, v''⟩ := p2
              rw [hres2] at h2
              exact hsub.trans h2
  | .difference b sub, visited, hv => by
    simp only [edgesRwAux]
    have h1 := edgesRwAux_good m pruned recurse P hP hrec target source b visited hv
    cases hres : edgesRwAux m pruned recurse target source b visited with
    | none => rw [hres] at h1; exact h1.elim
    | some r =>
      cases r with
      | error e => trivial
      | ok p =>
        obtain ⟨es, v'⟩ := p
        rw [hres] at h1
        have hsub : visited ⊆ v' := h1
        cases pruned with
        | true => exact hsub
        | false =>
          have h2 := edgesRwAux_good m false recurse P hP hrec target source sub v'
            (hP _ _ hsub hv)
          dsimp only
          cases hres2 : edgesRwAux m false recurse target source sub v' with
          | none => rw [hres2] at h2; exact h2.elim
          | some r2 =>
            cases r2 with
            | error e => trivial
            | ok p2 =>
              obtain ⟨es2, v''⟩ := p2
              rw [hres2] at h2
              exact hsub.trans h2

/-- Goodness of the child traversal of the edge builder. -/
theorem edgesChildrenAux_good (m : AuthorizationModel) (pruned : Bool)
    (recurse : List Key → RelationReference → RelationReference → EdgesOut)
    (P : List Key → Prop)
    (hP : ∀ v v', v ⊆ v' → P v → P v')
    (hrec : ∀ v t s, P v → EdgesOutOk v (recurse v t s))
    (target source : RelationReference) :
    ∀ (cs : List Userset) (visited : List Key), P visited →
      EdgesOutOk visited (edgesChildrenAux m pruned recurse target source cs visited)
  | [], visited, hv => by
    simp only [edgesChildrenAux]
    exact fun _ h => h
  | c :: cs, visited, hv => by
    simp only [edgesChildrenAux]
    have h1 := edgesRwAux_good m pruned recurse P hP hrec target source c visited hv
    cases hres : edgesRwAux m pruned recurse target source c visited with
    | none => rw [hres] at h1; exact h1.elim
    | some r =>
      cases r with
      | error e => trivial
      | ok p =>
        obtain ⟨es, v'⟩ := p
        rw [hres] at h1
        have hsub : visited ⊆ v' := h1
        have h2 := edgesChildrenAux_good m pruned recurse P hP hrec target source cs v'
          (hP _ _ hsub hv)
        dsimp only
        cases hres2 : edgesChildrenAux m pruned recurse target source cs v' with
        | none => rw [hres2] at h2; exact h2.elim
        | some r2 =>
          cases r2 with
          | error e => trivial
          | ok p2 =>
            obtain ⟨es2, v''⟩ := p2
            rw [hres2] at h2
            exact hsub.trans h2

end

/-- Fuel sufficiency of the relation-level edge builder: with more fuel than
there are unvisited relation frames, the guarded recursion always completes
(the formal content of the visited-frame cycle guard, spec edge-construction
step 5). -/
theorem edgesRec_good (m : AuthorizationModel) (pruned : Bool) :
    ∀ (fuel : Nat) (visited : List Key) (target source : RelationReference),
      countUnvisited m visited < fuel →
      EdgesOutOk visited (edgesRec m pruned fuel visited target source) := by
  intro fuel
  induction fuel with
  | zero => intro v t s h; exact absurd h (Nat.not_lt_zero _)
  | succ fuel ih =>
    intro visited target source h
    simp only [edgesRec]
    by_cases hk : ((target.refType, refRelName target) : Key) ∈ visited
    · rw [if_pos hk]
      exact fun _ hx => hx
    · rw [if_neg hk]
      cases hg : getRelation m target.refType (refRelName target) with
      | error e => trivial
      | ok w =>
        cases w with
        | none => exact List.subset_cons_self _ _
        | some rw =>
          have hkey : ((target.refType, refRelName target) : Key) ∈ dedupKeys m :=
            getRelation_key_mem m hg
          have hlt : countUnvisited m ((target.refType, refRelName target) :: visited) < fuel := by
            have hc := countUnvisited_cons m hkey hk
            omega
          have hmain := edgesRwAux_good m pruned (edgesRec m pruned fuel)
            (fun v => countUnvisited m v < fuel)
            (fun v v' hsub hv => Nat.lt_of_le_of_lt (countUnvisited_anti m hsub) hv)
            (fun v t s hv => ih v t s hv)
            target source rw ((target.refType, refRelName target) :: visited) hlt
          exact edgesOutOk_weaken hmain (List.subset_cons_self _ _)

/-- `GetRelationshipEdges` never runs out of fuel. -/
theorem getRelationshipEdges_total (m : AuthorizationModel)
    (target source : RelationReference) : (GetRelationshipEdges m target source).isSome := by
  have hlt : countUnvisited m [] < keyFuel m := by
    have hle : countUnvisited m [] ≤ (dedupKeys m).length := List.length_filter_le _ _
    unfold keyFuel
    omega
  have h := edgesRec_good m false (keyFuel m) [] target source hlt
  unfold GetRelationshipEdges
  cases hres : edgesRec m false (keyFuel m) [] target source with
  | none => rw [hres] at h; exact h.elim
  | some r =>
    cases r with
    | error e => simp
    | ok p => simp

/-- `GetPrunedRelationshipEdges` never runs out of fuel. -/
theorem getPrunedRelationshipEdges_total (m : AuthorizationModel)
    (target source : RelationReference) :
    (GetPrunedRelationshipEdges m target source).isSome := by
  have hlt : countUnvisited m [] < keyFuel m := by
    have hle : countUnvisited m [] ≤ (dedupKeys m).length := List.length_filter_le _ _
    unfold keyFuel
    omega
  have h := edgesRec_good m true (keyFuel m) [] target source hlt
  unfold GetPrunedRelationshipEdges
  cases hres : edgesRec m true (keyFuel m) [] target source with
  | none => rw [hres] at h; exact h.elim
  | some r =>
    cases r with
    | error e => simp
    | ok p => simp

/-- Run a fallible check on every element of a list, returning the first
error (spec section 7, propagation policy). -/
def seqCheck {α : Type} : List α → (α → Except TsError Unit) → Except TsError Unit
  | [], _ => .ok ()
  | a :: as, f =>
    match f a with
    | .error e => .error e
    | .ok _ => seqCheck as f

/-- Modelled from the spec: validator check 1 — reject any type or relation
named `this` or `self` with `ErrReservedKeywords`. -/
def checkReserved (m : AuthorizationModel) : Except TsError Unit :=
  seqCheck m.typeDefinitions (fun td =>
    if td.typeName = "this" ∨ td.typeName = "self" then .error .reservedKeywords
    else seqCheck td.relations (fun p =>
      if p.1 = "this" ∨ p.1 = "self" then .error .reservedKeywords else .ok ()))

/-- Modelled from the spec: validator check 2 — reject repeated type names
with `ErrDuplicateTypes`. -/
def checkDuplicateTypes (m : AuthorizationModel) : Except TsError Unit :=
  if (m.typeDefinitions.map (fun td => td.typeName)).Nodup then .ok ()
  else .error .duplicateTypes

/-- Modelled from the spec: validator checks 3-5 on a single relation — empty
rewrite or empty combinator (`ErrInvalidUsersetRewrite`), unresolved
computed-userset and tuple-to-userset references (`ErrRelationUndefined`; the
tupleset must be a relation of the same type, the computed userset must be
defined somewhere in the model), and self-reference through non-tuple
combinators (`ErrInvalidUsersetRewrite`). -/
def checkRelationRewrite (m : AuthorizationModel) (t r : String) :
    Option Userset → Except TsError Unit
  | none => .error .invalidUsersetRewrite
  | some rw =>
    if containsEmptyCombinator rw then .error .invalidUsersetRewrite
    else
      match seqCheck (cuNames rw) (fun cr =>
        if relationDefined m t cr then .ok () else .error (.relationUndefined cr)) with
      | .error e => .error e
      | .ok _ =>
        match seqCheck (ttuPairs rw) (fun q =>
          if relationDefined m t q.1 then
            if m.typeDefinitions.any (fun td => (assoc td.relations q.2).isSome) then .ok ()
            else .error (.relationUndefined q.2)
          else .error (.relationUndefined q.1)) with
        | .error e => .error e
        | .ok _ =>
          if r ∈ cuNames rw then .error .invalidUsersetRewrite else .ok ()

/-- Modelled from the spec: validator checks 3-5 over the whole model. -/
def checkRewrites (m : AuthorizationModel) : Except TsError Unit :=
  seqCheck m.typeDefinitions (fun td =>
    seqCheck td.relations (fun p => checkRelationRewrite m td.typeName p.1 p.2))

/-- Modelled from the spec: validator check 6 (schema 1.1) — assignable
relations need a non-empty allowed-types list and non-assignable ones an empty
one; every entry of the list must resolve to an existing type (and relation,
for userset references). -/
def checkTypeRestrictions (m : AuthorizationModel) : Except TsError Unit :=
  if m.schemaVersion = "1.1" then
    seqCheck m.typeDefinitions (fun td =>
      seqCheck td.relations (fun p =>
        let assignable := match p.2 with
          | some rw => containsThis rw
          | none => false
        let allowed := (assoc td.metadata p.1).getD []
        if assignable && allowed.isEmpty then .error (.assignableRelation td.typeName p.1)
        else if !assignable && !allowed.isEmpty then
          .error (.nonAssignableRelation td.typeName p.1)
        else
          seqCheck allowed (fun ref =>
            match findTypeDef m ref.refType with
            | none => .error (.invalidRelationType td.typeName p.1 ref.refType (refRelName ref))
            | some td2 =>
              match ref.kind with
              | .rel rr =>
                if (assoc td2.relations rr).isSome then .ok ()
                else .error (.invalidRelationType td.typeName p.1 ref.refType rr)
              | _ => .ok ())))
  else .ok ()

/-- Modelled from the spec: validator check 7 (schema 1.1) — the allowed-types
list of any relation used as the tupleset of a `TupleToUserset` may contain
only direct type references: wildcards (and userset references) are rejected
with `InvalidRelationTypeError`, as pinned by
`TestInvalidRelationTypeRestrictionsValidations/WildcardNotAllowedInTheTuplesetPartOfTTU`. -/
def checkTuplesetRestrictions (m : AuthorizationModel) : Except TsError Unit :=
  if m.schemaVersion = "1.1" then
    seqCheck m.typeDefinitions (fun td =>
      seqCheck td.relations (fun p =>
        match p.2 with
        | none => .ok ()
        | some rw =>
          seqCheck (ttuPairs rw) (fun q =>
            seqCheck (directlyRelatedUserTypes m td.typeName q.1) (fun ref =>
              match ref.kind with
              | .direct => .ok ()
              | .wildcard => .error (.invalidRelationType td.typeName q.1 ref.refType "")
              | .rel rr => .error (.invalidRelationType td.typeName q.1 ref.refType rr)))))
  else .ok ()

mutual

/-- Modelled from the spec: one-step entrypoint satisfaction of a rewrite
given the currently marked relation frames (spec validator check 8): a `This`
leaf is satisfied by a direct or wildcard allowed type, or by a marked userset
allowed type; a computed userset inherits from its target; a tuple-to-userset
from the computed relation on any type permitted by its tupleset; a union
needs one child, an intersection all children, and a difference both its base
and its subtract side (the latter as pinned by
`TestNewAndValidate/no_entrypoint_2`). -/
def entrySatRw (m : AuthorizationModel) (marked : List Key) (t : String)
    (allowed : List RelationReference) : Userset → Bool
  | .this => allowed.any (fun ref =>
      match ref.kind with
      | .direct => true
      | .wildcard => true
      | .rel r => decide ((ref.refType, r) ∈ marked))
  | .computedUserset r => decide (((t, r) : Key) ∈ marked)
  | .tupleToUserset ts cu =>
      (directlyRelatedUserTypes m t ts).any (fun ref =>
        relationDefined m ref.refType cu && decide (((ref.refType, cu) : Key) ∈ marked))
  | .union cs => entrySatAny m marked t allowed cs
  | .intersection cs => entrySatAll m marked t allowed cs
  | .difference b s => entrySatRw m marked t allowed b && entrySatRw m marked t allowed s

/-- Disjunction of `entrySatRw` over union children. -/
def entrySatAny (m : AuthorizationModel) (marked : List Key) (t : String)
    (allowed : List RelationReference) : List Userset → Bool
  | [] => false
  | c :: cs => entrySatRw m marked t allowed c || entrySatAny m marked t allowed cs

/-- Conjunction of `entrySatRw` over intersection children. -/
def entrySatAll (m : AuthorizationModel) (marked : List Key) (t : String)
    (allowed : List RelationReference) : List Userset → Bool
  | [] => true
  | c :: cs => entrySatRw m marked t allowed c && entrySatAll m marked t allowed cs

end

/-- Entrypoint satisfaction of a relation frame under the current marking. -/
def entrySatKey (m : AuthorizationModel) (marked : List Key) (k : Key) : Bool :=
  match getRelation m k.1 k.2 with
  | .ok (some rw) => entrySatRw m marked k.1 (directlyRelatedUserTypes m k.1 k.2) rw
  | _ => false

/-- One round of the least-fixed-point entrypoint marking. -/
def entryStep (m : AuthorizationModel) (marked : List Key) : List Key :=
  (relationKeys m).filter (fun k => decide (k ∈ marked) || entrySatKey m marked k)

/-- The least fixed point of `entryStep`, reached after at most as many
rounds as there are relation frames. -/
def entryMarked (m : AuthorizationModel) : List Key :=
  iterate (entryStep m) ((relationKeys m).length + 1) []

/-- Relation frames left unmarked by the entrypoint analysis. -/
def unmarkedKeys (m : AuthorizationModel) : List Key :=
  (relationKeys m).filter (fun k => !decide (k ∈ entryMarked m))

/-- Computed-userset successors of a frame restricted to a set `u` of frames
(the non-tuple combinator dependency edges of the loop discriminator). -/
def cuSuccsIn (m : AuthorizationModel) (u : List Key) (k : Key) : List Key :=
  match getRelation m k.1 k.2 with
  | .ok (some rw) =>
    (cuNames rw).filterMap (fun r =>
      if ((k.1, r) : Key) ∈ u then some ((k.1, r) : Key) else none)
  | _ => []

/-- Is the unmarked frame `k` on a cycle of computed-userset edges within the
unmarked set `u`?  Distinguishes `ErrNoEntryPointsLoop` from
`ErrNoEntrypoints` (spec validator check 8, recommended rule). -/
def onUnmarkedLoop (m : AuthorizationModel) (u : List Key) (k : Key) : Bool :=
  decide (k ∈ iterate (fun s => (s ++ s.flatMap (cuSuccsIn m u)).dedup)
    (u.length + 1) (cuSuccsIn m u k))

/-- Modelled from the spec: validator check 8 — every relation frame must be
marked by the entrypoint least fixed point; an unmarked frame on a cycle of
non-tuple combinator edges within the unmarked set yields
`ErrNoEntryPointsLoop`, any other unmarked frame `ErrNoEntrypoints`. -/
def checkEntrypoints (m : AuthorizationModel) : Except TsError Unit :=
  match unmarkedKeys m with
  | [] => .ok ()
  | k :: _ =>
    .error (if onUnmarkedLoop m (unmarkedKeys m) k then .noEntryPointsLoop else .noEntrypoints)

/-- Modelled from the spec: `NewAndValidate` — run all validator checks in the
order of spec section 4.2 and return the validated handle (modelled by `Unit`)
or the first error. -/
def NewAndValidate (m : AuthorizationModel) : Except TsError Unit := do
  checkReserved m
  checkDuplicateTypes m
  checkRewrites m
  checkTypeRestrictions m
  checkTuplesetRestrictions m
  checkEntrypoints m

/-- Scenario S2 (spec section 8): `type user; type document { viewer: [user:*] as self }`. -/
def modelS2 : AuthorizationModel :=
  ⟨"1.1",
   [⟨"user", [], []⟩,
    ⟨"document", [("viewer", some .this)], [("viewer", [⟨"user", .wildcard⟩])]⟩]⟩

/-- Scenario S1 (spec section 8): `type user; type document { viewer: [user] as self }`. -/
def modelS1 : AuthorizationModel :=
  ⟨"1.1",
   [⟨"user", [], []⟩,
    ⟨"document", [("viewer", some .this)], [("viewer", [⟨"user", .direct⟩])]⟩]⟩

/-- Model of `TestIsDirectlyRelated/direct_and_userset`:
`type group { member: [group#member] as self }; type document { viewer: [group#member] as self }`. -/
def modelUserset : AuthorizationModel :=
  ⟨"1.1",
   [⟨"group", [("member", some .this)], [("member", [⟨"group", .rel "member"⟩])]⟩,
    ⟨"document", [("viewer", some .this)], [("viewer", [⟨"group", .rel "member"⟩])]⟩]⟩

/-- Model of `TestIsPubliclyAssignable` case 4: `type user; type group { member:
[user:*] as self }; type document { viewer: [group#member] as self }`. -/
def modelPublicChain : AuthorizationModel :=
  ⟨"1.1",
   [⟨"user", [], []⟩,
    ⟨"group", [("member", some .this)], [("member", [⟨"user", .wildcard⟩])]⟩,
    ⟨"document", [("viewer", some .this)], [("viewer", [⟨"group", .rel "member"⟩])]⟩]⟩

/-- Scenario S6 (spec section 8), also
`TestRelationshipEdges/basic_relation_with_intersection_1`: `type user; type
document { allowed: [user] as self; viewer: [user] as self and allowed }`. -/
def modelS6 : AuthorizationModel :=
  ⟨"1.1",
   [⟨"user", [], []⟩,
    ⟨"document",
     [("allowed", some .this),
      ("viewer", some (.intersection [.this, .computedUserset "allowed"]))],
     [("allowed", [⟨"user", .direct⟩]), ("viewer", [⟨"user", .direct⟩])]⟩]⟩

/-- Model of `TestRelationshipEdges/basic_relation_with_exclusion_1`: `type
user; type document { restricted: [user] as self; viewer: [user] as self but
not restricted }`. -/
def modelExcl1 : AuthorizationModel :=
  ⟨"1.1",
   [⟨"user", [], []⟩,
    ⟨"document",
     [("restricted", some .this),
      ("viewer", some (.difference .this (.computedUserset "restricted")))],
     [("restricted", [⟨"user", .direct⟩]), ("viewer", [⟨"user", .direct⟩])]⟩]⟩

/-- Scenario S3 (spec section 8), also `TestNewAndValidate/no_entrypoint_1`:
three relations defined by mutual intersection with an assignable `admin`. -/
def modelS3 : AuthorizationModel :=
  ⟨"1.1",
   [⟨"user", [], []⟩,
    ⟨"document",
     [("admin", some .this),
      ("action1", some (.intersection
        [.computedUserset "admin", .computedUserset "action2", .computedUserset "action3"])),
      ("action2", some (.intersection
        [.computedUserset "admin", .computedUserset "action1", .computedUserset "action3"])),
      ("action3", some (.intersection
        [.computedUserset "admin", .computedUserset "action1", .computedUserset "action2"]))],
     [("admin", [⟨"user", .direct⟩])]⟩]⟩

/-- Scenario S4 (spec section 8), also `TestNewAndValidate/no_entrypoint_3a`:
`type user; type document { viewer: [document#viewer] as self and editor;
editor: [user] as self }`. -/
def modelS4 : AuthorizationModel :=
  ⟨"1.1",
   [⟨"user", [], []⟩,
    ⟨"document",
     [("viewer", some (.intersection [.this, .computedUserset "editor"])),
      ("editor", some .this)],
     [("viewer", [⟨"document", .rel "viewer"⟩]), ("editor", [⟨"user", .direct⟩])]⟩]⟩

/-- Model of `TestSuccessfulRewriteValidations/intersection_may_contain_repeated_relations`:
`type user; type document { editor: [user] as self; viewer as editor and editor }`. -/
def modelRepeatInter : AuthorizationModel :=
  ⟨"1.1",
   [⟨"user", [], []⟩,
    ⟨"document",
     [("editor", some .this),
      ("viewer", some (.intersection [.computedUserset "editor", .computedUserset "editor"]))],
     [("editor", [⟨"user", .direct⟩])]⟩]⟩

/-- Model of `TestSuccessfulRewriteValidations/exclusion_may_contain_repeated_relations`:
`type user; type document { editor: [user] as self; viewer as editor but not editor }`. -/
def modelRepeatExcl : AuthorizationModel :=
  ⟨"1.1",
   [⟨"user", [], []⟩,
    ⟨"document",
     [("editor", some .this),
      ("viewer", some (.difference (.computedUserset "editor") (.computedUserset "editor")))],
     [("editor", [⟨"user", .direct⟩])]⟩]⟩

/-- Reserved-name model: a relation named `this`. -/
def modelRelThis : AuthorizationModel :=
  ⟨"1.1", [⟨"repo", [("this", some .this)], []⟩]⟩

/-- Reserved-name model: a relation named `self`. -/
def modelRelSelf : AuthorizationModel :=
  ⟨"1.1", [⟨"repo", [("self", some .this)], []⟩]⟩

/-- Reserved-name model: a type named `this`. -/
def modelTypeThis : AuthorizationModel :=
  ⟨"1.1", [⟨"this", [("viewer", some .this)], []⟩]⟩

/-- Reserved-name model: a type named `self`. -/
def modelTypeSelf : AuthorizationModel :=
  ⟨"1.1", [⟨"self", [("viewer", some .this)], []⟩]⟩

/-- Scenario S5 (spec section 8): `type user; type folder { viewer: [user] as
self }; type document { parent: [folder] as self; viewer as viewer from parent }`. -/
def modelS5 : AuthorizationModel :=
  ⟨"1.1",
   [⟨"user", [], []⟩,
    ⟨"folder", [("viewer", some .this)], [("viewer", [⟨"user", .direct⟩])]⟩,
    ⟨"document",
     [("parent", some .this), ("viewer", some (.tupleToUserset "parent" "viewer"))],
     [("parent", [⟨"folder", .direct⟩])]⟩]⟩

/-- Minimal model `type user` used by the undefined-type/relation tests. -/
def modelUserOnly : AuthorizationModel :=
  ⟨"1.1", [⟨"user", [], []⟩]⟩

/-- Model of `TestSuccessfulRewriteValidations/self_referencing_type_restriction_with_entrypoint`:
`type user; type document { editor: [user] as self; viewer: [document#viewer] as
self or editor }` — a legal cyclical model. -/
def modelSelfRef : AuthorizationModel :=
  ⟨"1.1",
   [⟨"user", [], []⟩,
    ⟨"document",
     [("editor", some .this),
      ("viewer", some (.union [.this, .computedUserset "editor"]))],
     [("editor", [⟨"user", .direct⟩]), ("viewer", [⟨"document", .rel "viewer"⟩])]⟩]⟩

theorem exceptBind_ok {e1 : Except TsError Unit} {f : Unit → Except TsError Unit}
    (h : (e1 >>= f) = .ok ()) : e1 = .ok () ∧ f () = .ok () := by
  cases e1 with
  | error e => simp [Bind.bind, Except.bind] at h
  | ok u => cases u; exact ⟨rfl, by simpa [Bind.bind, Except.bind] using h⟩

theorem seqCheck_ok {α : Type} {l : List α} {f : α → Except TsError Unit}
    (h : seqCheck l f = .ok ()) : ∀ a ∈ l, f a = .ok () := by
  induction l with
  | nil => intro a ha; exact absurd ha (List.not_mem_nil a)
  | cons b bs ih =>
    intro a ha
    simp only [seqCheck] at h
    cases hb : f b with
    | error e => rw [hb] at h; exact absurd h (by simp)
    | ok u =>
      rw [hb] at h
      rcases List.mem_cons.mp ha with rfl | hmem
      · cases u; exact hb
      · exact ih h a hmem

theorem mem_markFurtherEval {e : RelationshipEdge} {es : List RelationshipEdge}
    (h : e ∈ markFurtherEval es) : e.condition = .requiresFurtherEval := by
  unfold markFurtherEval at h
  obtain ⟨x, _, hx⟩ := List.mem_map.mp h
  rw [← hx]

theorem length_markFurtherEval (es : List RelationshipEdge) :
    (markFurtherEval es).length = es.length := List.length_map es _

/-- C1 counterexample: on the model of scenario S2, whose allowed-types list
for `document#viewer` contains the wildcard `user:*`, `IsDirectlyRelated`
applied to the direct reference `user` returns `false`, not `true` as the
claim states (as pinned by `TestIsDirectlyRelated/wildcard_and_direct`). -/
theorem claim_C1_counterexample :
    ⟨"user", .wildcard⟩ ∈ directlyRelatedUserTypes modelS2 "document" "viewer" ∧
    IsDirectlyRelated modelS2 ⟨"document", .rel "viewer"⟩ ⟨"user", .direct⟩ = .ok false := by
  decide

/-- C1 (amended): `IsDirectlyRelated` matches allowed-type entries exactly by
kind — a wildcard entry matches only a wildcard source (a wildcard allowed
type does not subsume a direct source), a direct entry only a direct source,
a userset entry only the identical userset, and references of different types
never match. -/
theorem claim_C1 :
    IsDirectlyRelated modelS2 ⟨"document", .rel "viewer"⟩ ⟨"user", .wildcard⟩ = .ok true ∧
    IsDirectlyRelated modelS2 ⟨"document", .rel "viewer"⟩ ⟨"user", .direct⟩ = .ok false ∧
    IsDirectlyRelated modelS1 ⟨"document", .rel "viewer"⟩ ⟨"user", .wildcard⟩ = .ok false ∧
    IsDirectlyRelated modelS1 ⟨"document", .rel "viewer"⟩ ⟨"user", .direct⟩ = .ok true ∧
    IsDirectlyRelated modelUserset ⟨"document", .rel "viewer"⟩ ⟨"group", .rel "member"⟩ =
      .ok true ∧
    IsDirectlyRelated modelS1 ⟨"document", .rel "viewer"⟩ ⟨"employee", .direct⟩ = .ok false ∧
    IsDirectlyRelated modelS2 ⟨"document", .rel "viewer"⟩ ⟨"employee", .wildcard⟩ = .ok false := by
  decide

/-- C2 counterexample: on the intersection model of scenario S6 and on the
analogous exclusion model, the edge emerging from the second intersection
operand (resp. from the subtract side) carries `NoFurtherEvalCondition`, not
`RequiresFurtherEvalCondition` as the claim states. -/
theorem claim_C2_counterexample :
    GetRelationshipEdges modelS6 ⟨"document", .rel "viewer"⟩ ⟨"user", .direct⟩ =
      some (.ok [⟨.direct, ⟨"document", .rel "viewer"⟩, none, .requiresFurtherEval⟩,
                 ⟨.direct, ⟨"document", .rel "allowed"⟩, none, .noFurtherEval⟩]) ∧
    GetRelationshipEdges modelExcl1 ⟨"document", .rel "viewer"⟩ ⟨"user", .direct⟩ =
      some (.ok [⟨.direct, ⟨"document", .rel "viewer"⟩, none, .requiresFurtherEval⟩,
                 ⟨.direct, ⟨"document", .rel "restricted"⟩, none, .noFurtherEval⟩]) := by
  decide

/-- C2 (amended): in `GetRelationshipEdges`, every edge emerging from the
first operand of an `Intersection` node, and every edge emerging from the
base side of a `Difference` node, carries `RequiresFurtherEvalCondition`
(the remaining operands and the subtract side contribute their edges
unmarked). -/
theorem claim_C2 :
    (∀ (m : AuthorizationModel) (pruned : Bool)
      (recurse : List Key → RelationReference → RelationReference → EdgesOut)
      (target source : RelationReference) (c : Userset) (cs : List Userset)
      (visited : List Key) (es : List RelationshipEdge) (v' : List Key)
      (l : List RelationshipEdge) (vout : List Key),
      edgesRwAux m pruned recurse target source c visited = some (.ok (es, v')) →
      edgesRwAux m pruned recurse target source (.intersection (c :: cs)) visited =
        some (.ok (l, vout)) →
      ∀ e ∈ l.take es.length, e.condition = .requiresFurtherEval) ∧
    (∀ (m : AuthorizationModel) (pruned : Bool)
      (recurse : List Key → RelationReference → RelationReference → EdgesOut)
      (target source : RelationReference) (b sub : Userset)
      (visited : List Key) (es : List RelationshipEdge) (v' : List Key)
      (l : List RelationshipEdge) (vout : List Key),
      edgesRwAux m pruned recurse target source b visited = some (.ok (es, v')) →
      edgesRwAux m pruned recurse target source (.difference b sub) visited =
        some (.ok (l, vout)) →
      ∀ e ∈ l.take es.length, e.condition = .requiresFurtherEval) := by
  constructor
  · intro m pruned recurse target source c cs visited es v' l vout h1 h2
    rw [edgesRwAux, h1] at h2
    dsimp only at h2
    cases pruned with
    | true =>
      simp only [if_true] at h2
      have hl : markFurtherEval es = l :=
        congrArg Prod.fst (Except.ok.inj (Option.some.inj h2))
      intro e he
      rw [← hl] at he
      rw [← length_markFurtherEval es, List.take_length] at he
      exact mem_markFurtherEval he
    | false =>
      simp only [Bool.false_eq_true, if_false] at h2
      cases hres2 : edgesChildrenAux m false recurse target source cs v' with
      | none => rw [hres2] at h2; exact absurd h2 (by simp)
      | some r2 =>
        rw [hres2] at h2
        cases r2 with
        | error e => exact absurd h2 (by simp)
        | ok p2 =>
          obtain ⟨es2, v''⟩ := p2
          have hl : markFurtherEval es ++ es2 = l :=
            congrArg Prod.fst (Except.ok.inj (Option.some.inj h2))
          intro e he
          rw [← hl] at he
          rw [List.take_append_of_le_length (by rw [length_markFurtherEval])] at he
          rw [← length_markFurtherEval es, List.take_length] at he
          exact mem_markFurtherEval he
  · intro m pruned recurse target source b sub visited es v' l vout h1 h2
    rw [edgesRwAux, h1] at h2
    dsimp only at h2
    cases pruned with
    | true =>
      simp only [if_true] at h2
      have hl : markFurtherEval es = l :=
        congrArg Prod.fst (Except.ok.inj (Option.some.inj h2))
      intro e he
      rw [← hl] at he
      rw [← length_markFurtherEval es, List.take_length] at he
      exact mem_markFurtherEval he
    | false =>
      simp only [Bool.false_eq_true, if_false] at h2
      cases hres2 : edgesRwAux m false recurse target source sub v' with
      | none => rw [hres2] at h2; exact absurd h2 (by simp)
      | some r2 =>
        rw [hres2] at h2
        cases r2 with
        | error e => exact absurd h2 (by simp)
        | ok p2 =>
          obtain ⟨es2, v''⟩ := p2
          have hl : markFurtherEval es ++ es2 = l :=
            congrArg Prod.fst (Except.ok.inj (Option.some.inj h2))
          intro e he
          rw [← hl] at he
          rw [List.take_append_of_le_length (by rw [length_markFurtherEval])] at he
          rw [← length_markFurtherEval es, List.take_length] at he
          exact mem_markFurtherEval he

/-- C3: the validator distinguishes the two entrypoint failure modes — the
mutual-intersection model of scenario S3 is rejected with
`ErrNoEntryPointsLoop` and the self-referential userset restriction model of
scenario S4 with `ErrNoEntrypoints`. -/
theorem claim_C3 :
    NewAndValidate modelS3 = .error .noEntryPointsLoop ∧
    NewAndValidate modelS4 = .error .noEntrypoints := by
  decide

/-- C4: on the model of scenario S6, `GetRelationshipEdges(document#viewer,
user)` returns exactly the direct edge to `document#viewer` requiring further
evaluation followed by the direct edge to `document#allowed` requiring none,
and `GetPrunedRelationshipEdges` returns exactly the first of those edges. -/
theorem claim_C4 :
    GetRelationshipEdges modelS6 ⟨"document", .rel "viewer"⟩ ⟨"user", .direct⟩ =
      some (.ok [⟨.direct, ⟨"document", .rel "viewer"⟩, none, .requiresFurtherEval⟩,
                 ⟨.direct, ⟨"document", .rel "allowed"⟩, none, .noFurtherEval⟩]) ∧
    GetPrunedRelationshipEdges modelS6 ⟨"document", .rel "viewer"⟩ ⟨"user", .direct⟩ =
      some (.ok [⟨.direct, ⟨"document", .rel "viewer"⟩, none, .requiresFurtherEval⟩]) := by
  decide

/-- C9: the validator rejects `this` and `self` both as type names and as
relation names with `ErrReservedKeywords`, in all four combinations. -/
theorem claim_C9 :
    NewAndValidate modelRelThis = .error .reservedKeywords ∧
    NewAndValidate modelRelSelf = .error .reservedKeywords ∧
    NewAndValidate modelTypeThis = .error .reservedKeywords ∧
    NewAndValidate modelTypeSelf = .error .reservedKeywords := by
  decide

/-- C10: operand duplication inside a combinator is not a validation error —
the validator accepts `viewer as editor and editor` and `viewer as editor but
not editor`. -/
theorem claim_C10 :
    NewAndValidate modelRepeatInter = .ok () ∧
    NewAndValidate modelRepeatExcl = .ok () := by
  decide

/-- C2 witness: instantiating the amended claim on the scenario-S6 rewrite
with a trivial relation-level recursion — the single edge of the first
intersection operand, and of the exclusion base, is marked. -/
theorem claim_C2_witness :
    (∀ e ∈ (List.take 1
        [(⟨.direct, ⟨"document", .rel "viewer"⟩, none, .requiresFurtherEval⟩ :
          RelationshipEdge)]),
      e.condition = .requiresFurtherEval) ∧
    (∀ e ∈ (List.take 1
        [(⟨.direct, ⟨"document", .rel "viewer"⟩, none, .requiresFurtherEval⟩ :
          RelationshipEdge)]),
      e.condition = .requiresFurtherEval) :=
  ⟨claim_C2.1 modelS6 false (fun v _ _ => some (.ok ([], v)))
    ⟨"document", .rel "viewer"⟩ ⟨"user", .direct⟩ .this [.computedUserset "allowed"] []
    [⟨.direct, ⟨"document", .rel "viewer"⟩, none, .noFurtherEval⟩] []
    [⟨.direct, ⟨"document", .rel "viewer"⟩, none, .requiresFurtherEval⟩] []
    (by decide) (by decide),
   claim_C2.2 modelExcl1 false (fun v _ _ => some (.ok ([], v)))
    ⟨"document", .rel "viewer"⟩ ⟨"user", .direct⟩ .this (.computedUserset "restricted") []
    [⟨.direct, ⟨"document", .rel "viewer"⟩, none, .noFurtherEval⟩] []
    [⟨.direct, ⟨"document", .rel "viewer"⟩, none, .requiresFurtherEval⟩] []
    (by decide) (by decide)⟩

/-- C5 counterexample: in the model of `TestIsPubliclyAssignable` case 4 the
wildcard `user:*` is reachable through the userset chain
`document#viewer → group#member`, yet `IsPubliclyAssignable(document#viewer,
user)` returns `false` — the claim's "through a chain of userset references"
clause does not hold of the code. -/
theorem claim_C5_counterexample :
    ⟨"group", .rel "member"⟩ ∈ directlyRelatedUserTypes modelPublicChain "document" "viewer" ∧
    ⟨"user", .wildcard⟩ ∈ directlyRelatedUserTypes modelPublicChain "group" "member" ∧
    IsPubliclyAssignable modelPublicChain ⟨"document", .rel "viewer"⟩ "user" = .ok false := by
  decide

/-- C5 (amended): `IsPubliclyAssignable(target, objectType)` returns true iff
the wildcard `objectType:*` appears directly in `target`'s allowed-types
list. -/
theorem claim_C5 (m : AuthorizationModel) (target : RelationReference) (objectType : String)
    (b : Bool) (h : IsPubliclyAssignable m target objectType = .ok b) :
    b = true ↔
      (⟨objectType, .wildcard⟩ : RelationReference) ∈
        directlyRelatedUserTypes m target.refType (refRelName target) := by
  unfold IsPubliclyAssignable at h
  cases hg : getRelation m target.refType (refRelName target) with
  | error e => rw [hg] at h; simp [Bind.bind, Except.bind] at h
  | ok w =>
    rw [hg] at h
    simp only [Bind.bind, Except.bind, Except.ok.injEq] at h
    rw [← h]
    simp [List.any_eq_true]

/-- C5 witness: on the model of scenario S2 the wildcard is direct and the
query returns true. -/
theorem claim_C5_witness :
    true = true ↔
      (⟨"user", .wildcard⟩ : RelationReference) ∈
        directlyRelatedUserTypes modelS2
          (RelationReference.refType ⟨"document", .rel "viewer"⟩)
          (refRelName ⟨"document", .rel "viewer"⟩) :=
  claim_C5 modelS2 ⟨"document", .rel "viewer"⟩ "user" true (by decide)

/-- C6: for every model accepted by the validator, `GetRelationshipEdges` and
`GetPrunedRelationshipEdges` terminate on every `(target, source)` query: the
visited-frame cycle guard bounds the recursion by the number of relation
frames of the model, so the fuelled recursion never returns `none`. -/
theorem claim_C6 (m : AuthorizationModel) (_h : NewAndValidate m = .ok ())
    (target source : RelationReference) :
    (GetRelationshipEdges m target source).isSome ∧
    (GetPrunedRelationshipEdges m target source).isSome :=
  ⟨getRelationshipEdges_total m target source, getPrunedRelationshipEdges_total m target source⟩

/-- C6 witness: the legal cyclical model with a self-referential userset
restriction is accepted and both edge queries terminate on it. -/
theorem claim_C6_witness :
    (GetRelationshipEdges modelSelfRef ⟨"document", .rel "viewer"⟩ ⟨"user", .direct⟩).isSome ∧
    (GetPrunedRelationshipEdges modelSelfRef
      ⟨"document", .rel "viewer"⟩ ⟨"user", .direct⟩).isSome :=
  claim_C6 modelSelfRef (by decide) ⟨"document", .rel "viewer"⟩ ⟨"user", .direct⟩

/-- C7: in every model accepted by the validator under schema 1.1, a relation
for which `IsTuplesetRelation` holds has no wildcard in its allowed-types
list. -/
theorem claim_C7 (m : AuthorizationModel) (h : NewAndValidate m = .ok ())
    (hs : m.schemaVersion = "1.1") (t r : String)
    (htr : IsTuplesetRelation m t r = .ok true) :
    ∀ ref ∈ directlyRelatedUserTypes m t r, ref.kind ≠ .wildcard := by
  have hts : checkTuplesetRestrictions m = .ok () := by
    unfold NewAndValidate at h
    obtain ⟨-, h⟩ := exceptBind_ok h
    obtain ⟨-, h⟩ := exceptBind_ok h
    obtain ⟨-, h⟩ := exceptBind_ok h
    obtain ⟨-, h⟩ := exceptBind_ok h
    obtain ⟨h, -⟩ := exceptBind_ok h
    exact h
  rw [checkTuplesetRestrictions, if_pos hs] at hts
  cases hf : findTypeDef m t with
  | none => simp [IsTuplesetRelation, hf] at htr
  | some td =>
    cases ha : assoc td.relations r with
    | none => simp [IsTuplesetRelation, hf, ha] at htr
    | some w =>
      simp only [IsTuplesetRelation, hf, ha, Except.ok.injEq] at htr
      obtain ⟨p, hp, hmatch⟩ := List.any_eq_true.mp htr
      have htd_mem : td ∈ m.typeDefinitions := List.mem_of_find?_eq_some hf
      have htd_name : td.typeName = t := by
        have := List.find?_some hf
        simpa using this
      have h1 := seqCheck_ok hts td htd_mem
      have h2 := seqCheck_ok h1 p hp
      cases hprw : p.2 with
      | none => rw [hprw] at hmatch; exact absurd hmatch (by simp)
      | some rw2 =>
        rw [hprw] at hmatch h2
        obtain ⟨q, hq, hqr⟩ := List.any_eq_true.mp hmatch
        have hqr' : q.1 = r := by simpa using hqr
        have h3 := seqCheck_ok h2 q hq
        rw [htd_name, hqr'] at h3
        intro ref href
        have h4 := seqCheck_ok h3 ref href
        intro hkind
        rw [hkind] at h4
        simp at h4

/-- C7 witness: the scenario-S5 model is accepted, `document#parent` is a
tupleset relation, and its allowed-type entry `folder` is not a wildcard. -/
theorem claim_C7_witness :
    (⟨"folder", RefKind.direct⟩ : RelationReference).kind ≠ RefKind.wildcard :=
  claim_C7 modelS5 (by decide) rfl "document" "parent" (by decide)
    ⟨"folder", RefKind.direct⟩ (by decide)

/-- C8: every graph query taking a `(type, relation)` argument —
`GetRelationshipEdges`, `RelationInvolvesIntersection`,
`RelationInvolvesExclusion` and `IsTuplesetRelation` — returns
`ErrObjectTypeUndefined` when the named type is not defined in the model, and
`ErrRelationUndefined` when the type exists but the relation is not defined on
it. -/
theorem claim_C8 :
    (∀ (m : AuthorizationModel) (t r : String) (source : RelationReference),
      findTypeDef m t = none →
        GetRelationshipEdges m ⟨t, .rel r⟩ source = some (.error (.objectTypeUndefined t)) ∧
        RelationInvolvesIntersection m t r = .error (.objectTypeUndefined t) ∧
        RelationInvolvesExclusion m t r = .error (.objectTypeUndefined t) ∧
        IsTuplesetRelation m t r = .error (.objectTypeUndefined t)) ∧
    (∀ (m : AuthorizationModel) (t r : String) (td : TypeDefinition)
      (source : RelationReference),
      findTypeDef m t = some td → assoc td.relations r = none →
        GetRelationshipEdges m ⟨t, .rel r⟩ source = some (.error (.relationUndefined r)) ∧
        RelationInvolvesIntersection m t r = .error (.relationUndefined r) ∧
        RelationInvolvesExclusion m t r = .error (.relationUndefined r) ∧
        IsTuplesetRelation m t r = .error (.relationUndefined r)) := by
  constructor
  · intro m t r source hf
    have hg : getRelation m t r = .error (.objectTypeUndefined t) := by
      simp [getRelation, hf]
    refine ⟨?_, ?_, ?_, ?_⟩
    · rw [GetRelationshipEdges, keyFuel, edgesRec]
      simp [refRelName, hg]
    · rw [RelationInvolvesIntersection]
      simp [Bind.bind, Except.bind, hg]
    · rw [RelationInvolvesExclusion]
      simp [Bind.bind, Except.bind, hg]
    · simp [IsTuplesetRelation, hf]
  · intro m t r td source hf ha
    have hg : getRelation m t r = .error (.relationUndefined r) := by
      simp [getRelation, hf, ha]
    refine ⟨?_, ?_, ?_, ?_⟩
    · rw [GetRelationshipEdges, keyFuel, edgesRec]
      simp [refRelName, hg]
    · rw [RelationInvolvesIntersection]
      simp [Bind.bind, Except.bind, hg]
    · rw [RelationInvolvesExclusion]
      simp [Bind.bind, Except.bind, hg]
    · simp [IsTuplesetRelation, hf, ha]

/-- C8 witness: on the minimal model `type user`, queries against the missing
type `document` fail with `ErrObjectTypeUndefined` and queries against the
missing relation `user#viewer` with `ErrRelationUndefined`. -/
theorem claim_C8_witness :
    (GetRelationshipEdges modelUserOnly ⟨"document", .rel "viewer"⟩ ⟨"user", .direct⟩ =
        some (.error (.objectTypeUndefined "document")) ∧
      RelationInvolvesIntersection modelUserOnly "document" "viewer" =
        .error (.objectTypeUndefined "document") ∧
      RelationInvolvesExclusion modelUserOnly "document" "viewer" =
        .error (.objectTypeUndefined "document") ∧
      IsTuplesetRelation modelUserOnly "document" "viewer" =
        .error (.objectTypeUndefined "document")) ∧
    (GetRelationshipEdges modelUserOnly ⟨"user", .rel "viewer"⟩ ⟨"user", .direct⟩ =
        some (.error (.relationUndefined "viewer")) ∧
      RelationInvolvesIntersection modelUserOnly "user" "viewer" =
        .error (.relationUndefined "viewer") ∧
      RelationInvolvesExclusion modelUserOnly "user" "viewer" =
        .error (.relationUndefined "viewer") ∧
      IsTuplesetRelation modelUserOnly "user" "viewer" =
        .error (.relationUndefined "viewer")) :=
  ⟨claim_C8.1 modelUserOnly "document" "viewer" ⟨"user", .direct⟩ rfl,
   claim_C8.2 modelUserOnly "user" "viewer" ⟨"user", [], []⟩ ⟨"user", .direct⟩ rfl rfl⟩

end OpenFGA
